import Mathlib

/-!
Verification of the DCF valuation logic of `src/DCF.py`.

The repository is a single-script Streamlit dashboard; the one piece of
non-trivial logic is the function `dcf_valuation` (src/DCF.py lines 6-17)
and the inline fair-value-per-share computation (lines 78, 91-92).  We embed
both over `ℚ` (idealised exact arithmetic in place of Python floats) and
prove the specified properties about them.

The Python function can end in three ways, which we model with an
explicit outcome type:
  * it returns a number (`ok`),
  * it returns `None` after reporting invalid parameters (`invalid`),
  * it raises an exception (`error`) — `IndexError` on `cash_flows[-1]` or
    `discount_factors[-1]` for an empty list, or `ZeroDivisionError` on
    `1 / (1 + discount_rate)` when `discount_rate = -1`.
-/

namespace DCF

/-- Outcome of one call of the Python function `dcf_valuation`. -/
inductive DCFOutcome where
  | ok (v : ℚ)
  | invalid
  | error
  deriving DecidableEq

/-- Embedding of `discount_factors = [(1 / (1 + discount_rate)) ** i for i in range(1, years + 1)]`
(src/DCF.py line 11). -/
def discount_factors (discount_rate : ℚ) (years : ℕ) : List ℚ :=
  (List.range years).map fun i => (1 / (1 + discount_rate)) ^ (i + 1)

/-- Embedding of `present_values = [cf * df for cf, df in zip(cash_flows, discount_factors)]`
(src/DCF.py line 12). -/
def present_values (cash_flows dfs : List ℚ) : List ℚ :=
  (cash_flows.zip dfs).map fun p => p.1 * p.2

/-- Embedding of `dcf_valuation` (src/DCF.py lines 6-17).

Python raises `ZeroDivisionError` while building `discount_factors` when
`1 + discount_rate = 0` and at least one factor is computed, and raises
`IndexError` on `cash_flows[-1]` (empty cash-flow list) or on
`discount_factors[-1]` (`years = 0`); all three are modelled as `.error`. -/
def dcf_valuation (cash_flows : List ℚ) (discount_rate terminal_growth : ℚ)
    (years : ℕ) : DCFOutcome :=
  if discount_rate ≤ terminal_growth then
    .invalid
  else if years ≠ 0 ∧ 1 + discount_rate = 0 then
    .error
  else
    match cash_flows.getLast?, (discount_factors discount_rate years).getLast? with
    | some last, some dfLast =>
      let terminal_value := (last * (1 + terminal_growth)) / (discount_rate - terminal_growth)
      let terminal_value_pv := terminal_value * dfLast
      .ok ((present_values cash_flows (discount_factors discount_rate years)).sum
            + terminal_value_pv)
    | _, _ => .error

/-- Embedding of the guarded per-share computation (src/DCF.py lines 78, 91-92):
`fair_value_per_share = total_value / (market_cap / stock_price)` is produced
only when `market_cap` and `stock_price` are both present and strictly
positive; otherwise no value is produced. -/
def fair_value_per_share (total_value : ℚ) (market_cap stock_price : Option ℚ) :
    Option ℚ :=
  match market_cap, stock_price with
  | some mc, some sp =>
    if 0 < mc ∧ 0 < sp then some (total_value / (mc / sp)) else none
  | _, _ => none

/-- Sum of the zipped products as a finite sum over positions. -/
lemma present_values_sum (cf l : List ℚ) :
    (present_values cf l).sum
      = ∑ j ∈ Finset.range (min cf.length l.length), cf.getD j 0 * l.getD j 0 := by
  induction cf generalizing l with
  | nil => simp [present_values]
  | cons c cs ih =>
    cases l with
    | nil => simp [present_values]
    | cons d ds =>
      have ih2 := ih ds
      simp only [present_values, List.zip_cons_cons, List.map_cons, List.sum_cons] at ih2 ⊢
      rw [ih2]
      rw [List.length_cons, List.length_cons, Nat.succ_min_succ, Finset.sum_range_succ']
      simp [List.getD_cons_succ, List.getD_cons_zero]
      ring

/-- Length of the discount-factor list is the horizon. -/
lemma discount_factors_length (r : ℚ) (y : ℕ) : (discount_factors r y).length = y := by
  simp [discount_factors]

/-- Entry `j` of the discount-factor list is the year-(j+1) factor. -/
lemma discount_factors_getD {j y : ℕ} (r : ℚ) (h : j < y) :
    (discount_factors r y).getD j 0 = (1 / (1 + r)) ^ (j + 1) := by
  simp [discount_factors, List.getD_eq_getElem?_getD, List.getElem?_map,
    List.getElem?_range h]

/-- Last entry of the discount-factor list is the final-year factor. -/
lemma discount_factors_getLast (r : ℚ) {y : ℕ} (hy : y ≠ 0) :
    (discount_factors r y).getLast? = some ((1 / (1 + r)) ^ y) := by
  obtain ⟨k, rfl⟩ := Nat.exists_eq_succ_of_ne_zero hy
  rw [discount_factors, List.range_succ, List.map_append]
  simp

/-- The last entry of a non-empty list as an indexed access. -/
lemma getLast_eq_getD {cf : List ℚ} (h : cf ≠ []) :
    cf.getLast? = some (cf.getD (cf.length - 1) 0) := by
  have hlt : cf.length - 1 < cf.length := by
    have := List.length_pos.mpr h
    omega
  rw [List.getLast?_eq_getElem?, List.getElem?_eq_getElem hlt,
    List.getD_eq_getElem _ _ hlt]

/-- Closed form of a successful valuation call: discounted explicit projection
plus discounted Gordon-growth terminal value built from the last list entry. -/
lemma dcf_valuation_ok (cf : List ℚ) (r g : ℚ) (y : ℕ)
    (hrg : g < r) (hr : 1 + r ≠ 0) (hy : y ≠ 0) (hlen : y ≤ cf.length) :
    dcf_valuation cf r g y
      = .ok ((∑ j ∈ Finset.range y, cf.getD j 0 * (1 / (1 + r)) ^ (j + 1))
          + cf.getD (cf.length - 1) 0 * (1 + g) / (r - g) * (1 / (1 + r)) ^ y) := by
  have hne : cf ≠ [] := by
    intro hnil
    rw [hnil] at hlen
    simp at hlen
    omega
  rw [dcf_valuation, if_neg (not_le.mpr hrg),
    if_neg (fun hc => hr hc.2)]
  rw [getLast_eq_getD hne, discount_factors_getLast r hy]
  simp only [present_values_sum, discount_factors_length]
  rw [Nat.min_eq_right hlen]
  congr 1
  rw [Finset.sum_congr rfl fun j hj => by
    rw [discount_factors_getD r (Finset.mem_range.mp hj)]]

/-- Closed form specialised to a cash-flow list of length exactly `years`. -/
lemma dcf_valuation_ok_len (cf : List ℚ) (r g : ℚ) (y : ℕ)
    (hrg : g < r) (hr : 1 + r ≠ 0) (hy : y ≠ 0) (hlen : cf.length = y) :
    dcf_valuation cf r g y
      = .ok ((∑ j ∈ Finset.range y, cf.getD j 0 * (1 / (1 + r)) ^ (j + 1))
          + cf.getD (y - 1) 0 * (1 + g) / (r - g) * (1 / (1 + r)) ^ y) := by
  have h := dcf_valuation_ok cf r g y hrg hr hy (le_of_eq hlen.symm)
  rw [hlen] at h
  exact h

/-- Combined closed form: the final explicit-year term and the terminal term
merge into `cf[y-1] * (1+r)^(1-y) / (r-g)`, eliminating `1 + g`. -/
lemma dcf_valuation_ok_combined (cf : List ℚ) (r g : ℚ) (y : ℕ)
    (hrg : g < r) (hr : 1 + r ≠ 0) (hy : y ≠ 0) (hlen : cf.length = y) :
    dcf_valuation cf r g y
      = .ok ((∑ j ∈ Finset.range (y - 1), cf.getD j 0 * (1 / (1 + r)) ^ (j + 1))
          + cf.getD (y - 1) 0 * (1 / (1 + r)) ^ (y - 1) / (r - g)) := by
  rw [dcf_valuation_ok_len cf r g y hrg hr hy hlen]
  obtain ⟨k, rfl⟩ := Nat.exists_eq_succ_of_ne_zero hy
  congr 1
  rw [Finset.sum_range_succ]
  have hsub : r - g ≠ 0 := sub_ne_zero.mpr (ne_of_gt hrg)
  have hk : k + 1 - 1 = k := rfl
  rw [hk]
  field_simp
  ring

/-- Entry `j` survives overwriting entry `j`. -/
lemma getD_set_self {l : List ℚ} {j : ℕ} (x : ℚ) (h : j < l.length) :
    (l.set j x).getD j 0 = x := by
  rw [List.getD_eq_getElem _ _ (by simpa using h)]
  exact List.getElem_set_self _

/-- Entry `j` is unchanged by overwriting a different entry `i`. -/
lemma getD_set_ne {l : List ℚ} {i j : ℕ} (x : ℚ) (h : i ≠ j) (hj : j < l.length) :
    (l.set i x).getD j 0 = l.getD j 0 := by
  rw [List.getD_eq_getElem _ _ (by simpa using hj), List.getD_eq_getElem _ _ hj]
  exact List.getElem_set_ne h _

/-- Claim C1 (confirmed): for a cash-flow list of length `years ≥ 1` and rates
with `discountRate > terminalGrowth` (and `1 + discountRate ≠ 0`, which the
claim's powers of `(1+r)^(-i)` presuppose), `dcf_valuation` returns
`Σ_{i=1..years} cashFlows[i] * (1+r)^(-i) +
 cashFlows[years] * (1+g) / (r-g) * (1+r)^(-years)`. -/
theorem claim1_explicit_plus_terminal (cf : List ℚ) (r g : ℚ) (y : ℕ)
    (hlen : cf.length = y) (hy : 1 ≤ y) (hrg : g < r) (hr : 1 + r ≠ 0) :
    dcf_valuation cf r g y
      = .ok ((∑ j ∈ Finset.range y, cf.getD j 0 * ((1 + r) ^ (j + 1))⁻¹)
          + cf.getD (y - 1) 0 * (1 + g) / (r - g) * ((1 + r) ^ y)⁻¹) := by
  rw [dcf_valuation_ok_len cf r g y hrg hr (by omega) hlen]
  simp [one_div, inv_pow]

/-- Witness for claim C1 at `cashFlows = [1]`, `r = 1/10`, `g = 0`, `years = 1`. -/
theorem claim1_witness :
    dcf_valuation [1] (1/10) 0 1
      = .ok ((∑ j ∈ Finset.range 1, ([(1:ℚ)].getD j 0) * ((1 + 1/10) ^ (j + 1))⁻¹)
          + [(1:ℚ)].getD 0 0 * (1 + 0) / (1/10 - 0) * ((1 + 1/10) ^ 1)⁻¹) :=
  claim1_explicit_plus_terminal [1] (1/10) 0 1 rfl (by norm_num) (by norm_num) (by norm_num)

/-- Claim C2 counterexample: at `cashFlows = [-100]`, `r = 1/10`, `g = 1/50`,
`years = 1`, the computed total is `-1250 ≤ 0`, yet the function returns it
as a numeric result instead of signalling invalid. -/
theorem claim2_counterexample :
    dcf_valuation [-100] (1/10) (1/50) 1 = .ok (-1250) ∧ (-1250 : ℚ) ≤ 0 := by
  refine ⟨?_, by norm_num⟩
  norm_num [dcf_valuation, discount_factors, present_values, List.range_succ]

/-- Claim C2 (corrected): the function has no non-positive-total floor; the
`invalid` signal is produced exactly when `discountRate ≤ terminalGrowth`, and
a non-positive computed total is returned as an ordinary numeric result. -/
theorem claim2_amended_invalid_iff (cf : List ℚ) (r g : ℚ) (y : ℕ) :
    dcf_valuation cf r g y = .invalid ↔ r ≤ g := by
  by_cases h : r ≤ g
  · rw [dcf_valuation, if_pos h]
    simp [h]
  · rw [dcf_valuation, if_neg h]
    by_cases hc : y ≠ 0 ∧ 1 + r = 0
    · rw [if_pos hc]
      simp [h]
    · rw [if_neg hc]
      rcases h1 : cf.getLast? with _ | last
      · simp [h]
      · rcases h2 : (discount_factors r y).getLast? with _ | dfl
        · simp [h]
        · simp [h]

/-- Claim C3 counterexample: `[100]` and `[100, 200]` agree on their first
`years = 1` entries, but the valuations differ because the terminal value is
built from the last entry of the whole list (`cash_flows[-1]`), not from
entry `years`. -/
theorem claim3_counterexample :
    dcf_valuation [100] (1/10) (1/50) 1 = .ok 1250
    ∧ dcf_valuation [100, 200] (1/10) (1/50) 1 = .ok (26500/11)
    ∧ (1250 : ℚ) ≠ 26500/11 := by
  refine ⟨?_, ?_, by norm_num⟩
  · norm_num [dcf_valuation, discount_factors, present_values, List.range_succ]
  · norm_num [dcf_valuation, discount_factors, present_values, List.range_succ]

/-- Claim C3 (corrected): two cash-flow lists with at least `years` entries
that agree on their first `years` entries AND on their last entry get the same
valuation; entries strictly between position `years` and the final position
never influence the result. -/
theorem claim3_amended (cf1 cf2 : List ℚ) (r g : ℚ) (y : ℕ)
    (hlen1 : y ≤ cf1.length) (hlen2 : y ≤ cf2.length)
    (hagree : ∀ j < y, cf1.getD j 0 = cf2.getD j 0)
    (hlast : cf1.getLast? = cf2.getLast?) (hrg : g < r) :
    dcf_valuation cf1 r g y = dcf_valuation cf2 r g y := by
  rw [dcf_valuation, dcf_valuation, if_neg (not_le.mpr hrg), if_neg (not_le.mpr hrg)]
  by_cases hc : y ≠ 0 ∧ 1 + r = 0
  · rw [if_pos hc, if_pos hc]
  · rw [if_neg hc, if_neg hc, hlast]
    have hsum : (present_values cf1 (discount_factors r y)).sum
        = (present_values cf2 (discount_factors r y)).sum := by
      rw [present_values_sum, present_values_sum, discount_factors_length,
        Nat.min_eq_right hlen1, Nat.min_eq_right hlen2]
      exact Finset.sum_congr rfl fun j hj => by
        rw [hagree j (Finset.mem_range.mp hj)]
    rw [hsum]

/-- Witness for amended claim C3: lists differing only in a middle entry
(after the first `years = 1` entries, before the last) valuate equally. -/
theorem claim3_witness :
    dcf_valuation [100, 7, 100] (1/10) 0 1 = dcf_valuation [100, 9, 100] (1/10) 0 1 :=
  claim3_amended [100, 7, 100] [100, 9, 100] (1/10) 0 1 (by norm_num) (by norm_num)
    (by intro j hj; interval_cases j; rfl) rfl (by norm_num)

/-- Claim C4 (confirmed): whenever `discountRate ≤ terminalGrowth` the function
signals invalid, for every cash-flow list and horizon, before any computation. -/
theorem claim4_invalid_rates (cf : List ℚ) (r g : ℚ) (y : ℕ)
    (_hy : 1 ≤ y) (h : r ≤ g) : dcf_valuation cf r g y = .invalid := by
  rw [dcf_valuation, if_pos h]

/-- Witness for claim C4 at `r = 1/50 ≤ g = 1/10`. -/
theorem claim4_witness : dcf_valuation [1] (1/50) (1/10) 3 = .invalid :=
  claim4_invalid_rates [1] (1/50) (1/10) 3 (by norm_num) (by norm_num)

/-- Claim C5 counterexample: on the spec's example input the code's exact
value is `21174185/14641 ≈ 1446.23`, which is more than 100 away from the
claimed `≈ 1584.7`, far outside any `1e-6` relative tolerance. -/
theorem claim5_counterexample :
    dcf_valuation [105, 441/4, 2894/25, 2431/20, 12763/100] (1/10) (1/50) 5
      = .ok (21174185/14641)
    ∧ 100 < |(21174185/14641 : ℚ) - 15847/10| := by
  constructor
  · norm_num [dcf_valuation, discount_factors, present_values, List.range_succ]
  · rw [lt_abs]
    right
    norm_num

/-- Claim C5 (corrected): on `cashFlows = [105, 110.25, 115.76, 121.55, 127.63]`,
`r = 0.10`, `g = 0.02`, `years = 5` the total is `≈ 1446.2`, decomposed as
explicit present value `≈ 435.8` plus terminal present value `≈ 1010.4`
(exact rational values shown; each within `0.1` of the rounded figure). -/
theorem claim5_amended :
    dcf_valuation [105, 441/4, 2894/25, 2431/20, 12763/100] (1/10) (1/50) 5
      = .ok (21174185/14641)
    ∧ (present_values [105, 441/4, 2894/25, 2431/20, 12763/100]
        (discount_factors (1/10) 5)).sum = 70187785/161051
    ∧ ((12763/100 : ℚ) * (1 + 1/50)) / (1/10 - 1/50) * (1/(1 + 1/10))^5
        = 162728250/161051
    ∧ (70187785/161051 : ℚ) + 162728250/161051 = 21174185/14641
    ∧ |(70187785/161051 : ℚ) - 4358/10| < 1/10
    ∧ |(162728250/161051 : ℚ) - 10104/10| < 1/10
    ∧ |(21174185/14641 : ℚ) - 14462/10| < 1/10 := by
  refine ⟨?_, ?_, by norm_num, by norm_num, ?_, ?_, ?_⟩
  · norm_num [dcf_valuation, discount_factors, present_values, List.range_succ]
  · norm_num [present_values, discount_factors, List.range_succ]
  all_goals exact abs_sub_lt_iff.mpr ⟨by norm_num, by norm_num⟩

/-- Claim C6 counterexample: all cash flows positive (`[1, 1]`), horizon 2 and
`r = -2.999 > g = -3`, yet the returned total `-1001000/1999` is negative. -/
theorem claim6_counterexample :
    dcf_valuation [1, 1] (-2999/1000) (-3) 2 = .ok (-1001000/1999)
    ∧ ¬ (0 < (-1001000/1999 : ℚ)) := by
  refine ⟨?_, by norm_num⟩
  norm_num [dcf_valuation, discount_factors, present_values, List.range_succ]

/-- Claim C6 (corrected): with the additional hypothesis `discountRate > -1`
(so that every discount factor is positive), positive cash flows of length
`years ≥ 1` and `discountRate > terminalGrowth` give a strictly positive
numeric result. -/
theorem claim6_amended (cf : List ℚ) (r g : ℚ) (y : ℕ)
    (hlen : cf.length = y) (hy : 1 ≤ y) (hpos : ∀ x ∈ cf, 0 < x)
    (hrg : g < r) (hr : -1 < r) :
    ∃ v, dcf_valuation cf r g y = .ok v ∧ 0 < v := by
  have h1r : (0:ℚ) < 1 + r := by linarith
  have hq : (0:ℚ) < 1 / (1 + r) := by positivity
  rw [dcf_valuation_ok_combined cf r g y hrg (ne_of_gt h1r) (by omega) hlen]
  refine ⟨_, rfl, ?_⟩
  have hsub : (0:ℚ) < r - g := by linarith
  apply add_pos_of_nonneg_of_pos
  · apply Finset.sum_nonneg
    intro j hj
    have hj3 : j < cf.length := by
      have := Finset.mem_range.mp hj
      omega
    have hmem : cf.getD j 0 ∈ cf := by
      rw [List.getD_eq_getElem _ _ hj3]
      exact List.getElem_mem _
    have hcf := hpos _ hmem
    positivity
  · have hj3 : y - 1 < cf.length := by omega
    have hmem : cf.getD (y - 1) 0 ∈ cf := by
      rw [List.getD_eq_getElem _ _ hj3]
      exact List.getElem_mem _
    have hcf := hpos _ hmem
    positivity

/-- Witness for amended claim C6 at `cashFlows = [1]`, `r = 1/10`, `g = 1/50`. -/
theorem claim6_witness :
    ∃ v, dcf_valuation [1] (1/10) (1/50) 1 = .ok v ∧ 0 < v :=
  claim6_amended [1] (1/10) (1/50) 1 rfl (by norm_num)
    (by
      intro x hx
      rw [List.mem_singleton] at hx
      rw [hx]
      norm_num)
    (by norm_num) (by norm_num)

/-- Claim C7 counterexample: with the negative cash flow `[-1]` the result
increases (from `-10` to `-5`) when the discount rate increases from
`1/10` to `1/5`, refuting unconditional strict decrease. -/
theorem claim7_counterexample :
    dcf_valuation [-1] (1/10) 0 1 = .ok (-10)
    ∧ dcf_valuation [-1] (1/5) 0 1 = .ok (-5)
    ∧ ¬ ((-5 : ℚ) < -10) := by
  refine ⟨?_, ?_, by norm_num⟩
  · norm_num [dcf_valuation, discount_factors, present_values, List.range_succ]
  · norm_num [dcf_valuation, discount_factors, present_values, List.range_succ]

/-- Claim C7 (corrected): for a positive cash-flow list of length `years ≥ 1`
and `-1 < r1 < r2` with `g < r1`, the valuation at the larger discount rate is
strictly smaller. -/
theorem claim7_amended (cf : List ℚ) (r1 r2 g : ℚ) (y : ℕ)
    (hlen : cf.length = y) (hy : 1 ≤ y) (hpos : ∀ x ∈ cf, 0 < x)
    (hg : g < r1) (h12 : r1 < r2) (hr : -1 < r1) :
    ∃ v1 v2, dcf_valuation cf r1 g y = .ok v1
      ∧ dcf_valuation cf r2 g y = .ok v2 ∧ v2 < v1 := by
  have h1 : (0:ℚ) < 1 + r1 := by linarith
  have h2 : (0:ℚ) < 1 + r2 := by linarith
  have hq1 : (0:ℚ) < 1 / (1 + r1) := by positivity
  have hq2 : (0:ℚ) < 1 / (1 + r2) := by positivity
  have hqlt : 1 / (1 + r2) < 1 / (1 + r1) :=
    one_div_lt_one_div_of_lt h1 (by linarith)
  rw [dcf_valuation_ok_combined cf r1 g y hg (ne_of_gt h1) (by omega) hlen,
    dcf_valuation_ok_combined cf r2 g y (lt_trans hg h12) (ne_of_gt h2) (by omega) hlen]
  refine ⟨_, _, rfl, rfl, ?_⟩
  have hj3 : y - 1 < cf.length := by omega
  have hlast : 0 < cf.getD (y - 1) 0 := by
    have hmem : cf.getD (y - 1) 0 ∈ cf := by
      rw [List.getD_eq_getElem _ _ hj3]
      exact List.getElem_mem _
    exact hpos _ hmem
  apply add_lt_add_of_le_of_lt
  · apply Finset.sum_le_sum
    intro j hj
    have hjy : j < y - 1 := Finset.mem_range.mp hj
    have hjlen : j < cf.length := by omega
    have hcf : 0 < cf.getD j 0 := by
      have hmem : cf.getD j 0 ∈ cf := by
        rw [List.getD_eq_getElem _ _ hjlen]
        exact List.getElem_mem _
      exact hpos _ hmem
    exact mul_le_mul_of_nonneg_left
      (pow_le_pow_left₀ (le_of_lt hq2) (le_of_lt hqlt) _) (le_of_lt hcf)
  · rw [div_eq_mul_inv, div_eq_mul_inv]
    have hg1 : (0:ℚ) < r1 - g := by linarith
    apply mul_lt_mul'
    · exact mul_le_mul_of_nonneg_left
        (pow_le_pow_left₀ (le_of_lt hq2) (le_of_lt hqlt) _) (le_of_lt hlast)
    · exact inv_strictAnti₀ hg1 (by linarith)
    · exact le_of_lt (inv_pos.mpr (by linarith))
    · exact mul_pos hlast (pow_pos hq1 _)

/-- Witness for amended claim C7 at `cashFlows = [1]`, `r1 = 1/10`, `r2 = 1/5`. -/
theorem claim7_witness :
    ∃ v1 v2, dcf_valuation [1] (1/10) 0 1 = .ok v1
      ∧ dcf_valuation [1] (1/5) 0 1 = .ok v2 ∧ v2 < v1 :=
  claim7_amended [1] (1/10) (1/5) 0 1 rfl (by norm_num)
    (by
      intro x hx
      rw [List.mem_singleton] at hx
      rw [hx]
      norm_num)
    (by norm_num) (by norm_num) (by norm_num)

/-- Claim C8 counterexample: with `r = -3`, `g = -4` the year-1 discount
factor is negative, so raising the first cash flow from 1 to 2 strictly
decreases the result (`-1` drops to `-3/2`). -/
theorem claim8_counterexample :
    dcf_valuation [1, 1] (-3) (-4) 2 = .ok (-1)
    ∧ dcf_valuation [2, 1] (-3) (-4) 2 = .ok (-3/2)
    ∧ ¬ ((-1 : ℚ) < -3/2) := by
  refine ⟨?_, ?_, by norm_num⟩
  · norm_num [dcf_valuation, discount_factors, present_values, List.range_succ]
  · norm_num [dcf_valuation, discount_factors, present_values, List.range_succ]

/-- Claim C8 (corrected): with the additional hypothesis `discountRate > -1`,
strictly increasing any single entry of a length-`years` cash-flow list
(holding the others fixed) strictly increases the valuation. -/
theorem claim8_amended (cf : List ℚ) (x : ℚ) (j : ℕ) (r g : ℚ) (y : ℕ)
    (hlen : cf.length = y) (hj : j < y) (hx : cf.getD j 0 < x)
    (hg : g < r) (hr : -1 < r) :
    ∃ v1 v2, dcf_valuation cf r g y = .ok v1
      ∧ dcf_valuation (cf.set j x) r g y = .ok v2 ∧ v1 < v2 := by
  have h1 : (0:ℚ) < 1 + r := by linarith
  have hq : (0:ℚ) < 1 / (1 + r) := by positivity
  have hsub : (0:ℚ) < r - g := by linarith
  have hlen2 : (cf.set j x).length = y := by
    rw [List.length_set]
    exact hlen
  rw [dcf_valuation_ok_combined cf r g y hg (ne_of_gt h1) (by omega) hlen,
    dcf_valuation_ok_combined (cf.set j x) r g y hg (ne_of_gt h1) (by omega) hlen2]
  refine ⟨_, _, rfl, rfl, ?_⟩
  by_cases hjy : j = y - 1
  · subst hjy
    apply add_lt_add_of_le_of_lt
    · apply le_of_eq
      apply Finset.sum_congr rfl
      intro i hi
      have hiy : i < y - 1 := Finset.mem_range.mp hi
      rw [getD_set_ne x (by omega) (by omega)]
    · rw [getD_set_self x (by omega)]
      exact (div_lt_div_iff_of_pos_right hsub).mpr
        (mul_lt_mul_of_pos_right hx (pow_pos hq _))
  · have hjlt : j < y - 1 := by omega
    apply add_lt_add_of_lt_of_le
    · apply Finset.sum_lt_sum
      · intro i hi
        by_cases hij : i = j
        · subst hij
          rw [getD_set_self x (by omega)]
          exact le_of_lt (mul_lt_mul_of_pos_right hx (pow_pos hq _))
        · rw [getD_set_ne x (fun hh => hij hh.symm) (by
            have := Finset.mem_range.mp hi
            omega)]
      · exact ⟨j, Finset.mem_range.mpr hjlt, by
          rw [getD_set_self x (by omega)]
          exact mul_lt_mul_of_pos_right hx (pow_pos hq _)⟩
    · apply le_of_eq
      rw [getD_set_ne x hjy (by omega)]

/-- Witness for amended claim C8: raising `[1]` to `[2]` at position 0. -/
theorem claim8_witness :
    ∃ v1 v2, dcf_valuation [1] (1/10) 0 1 = .ok v1
      ∧ dcf_valuation (List.set [1] 0 2) (1/10) 0 1 = .ok v2 ∧ v1 < v2 :=
  claim8_amended [1] 2 0 (1/10) 0 1 rfl (by norm_num) (by norm_num)
    (by norm_num) (by norm_num)

/-- Claim C9 (confirmed): fair value per share equals
`total / (marketCap / stockPrice)` when both optional inputs are present and
strictly positive, is not produced when either is missing, zero or negative,
and the concrete example `total = 1000`, `marketCap = 5000`, `stockPrice = 10`
gives `2`. -/
theorem claim9_fair_value :
    (∀ total mc sp : ℚ, 0 < mc → 0 < sp →
      fair_value_per_share total (some mc) (some sp) = some (total / (mc / sp)))
    ∧ (∀ total mc sp : ℚ, mc ≤ 0 ∨ sp ≤ 0 →
      fair_value_per_share total (some mc) (some sp) = none)
    ∧ (∀ (total : ℚ) (sp : Option ℚ), fair_value_per_share total none sp = none)
    ∧ (∀ (total : ℚ) (mc : Option ℚ), fair_value_per_share total mc none = none)
    ∧ fair_value_per_share 1000 (some 5000) (some 10) = some 2 := by
  refine ⟨?_, ?_, ?_, ?_, ?_⟩
  · intro total mc sp hmc hsp
    rw [fair_value_per_share, if_pos ⟨hmc, hsp⟩]
  · intro total mc sp h
    rw [fair_value_per_share, if_neg]
    rintro ⟨h1, h2⟩
    rcases h with h | h <;> linarith
  · intro total sp
    cases sp <;> rfl
  · intro total mc
    cases mc <;> rfl
  · norm_num [fair_value_per_share]

/-- Witness for claim C9: the positive-inputs branch applied at
`total = 7`, `marketCap = 5000`, `stockPrice = 10`. -/
theorem claim9_witness :
    fair_value_per_share 7 (some 5000) (some 10) = some (7 / 500) := by
  have h := claim9_fair_value.1 7 5000 10 (by norm_num) (by norm_num)
  rw [h]
  norm_num

/-- Claim C10 (confirmed): on an empty cash-flow list with
`discountRate > terminalGrowth` the function neither returns a number nor the
clean invalid signal — `cash_flows[-1]` raises `IndexError` (modelled `.error`). -/
theorem claim10_empty_error (r g : ℚ) (y : ℕ) (h : g < r) :
    dcf_valuation [] r g y = .error := by
  rw [dcf_valuation, if_neg (not_le.mpr h)]
  by_cases hc : y ≠ 0 ∧ 1 + r = 0
  · rw [if_pos hc]
  · rw [if_neg hc]
    rfl

/-- Witness for claim C10 at `r = 1/10`, `g = 0`, `years = 5`. -/
theorem claim10_witness : dcf_valuation [] (1/10) 0 5 = .error :=
  claim10_empty_error (1/10) 0 5 (by norm_num)

end DCF
